import Mathlib

/-!
Verification of the `bs-contract` betting program
(`src/program-rust/src/lib.rs`) against its natural-language
specification.

The Rust program is shallowly embedded: each `_process_*` entry point
becomes a pure Lean function from an explicit argument record (the
accounts the instruction names, plus the trusted clock value) to
`Except ProgramError <result>`.  In the Rust source every mutation of an
account (lamport transfer or record serialization) happens only after the
last possible early `return Err(..)`, so an `.error` result of the
embedded function corresponds exactly to a call that leaves every
account untouched and moves no value.

Machine integers are modelled as `Nat` with explicit reduction modulo
`2^64` (resp. `2^128`) wherever the Rust code performs `u64` (resp.
`u128`) arithmetic that can wrap.  Solana programs are compiled in
release mode, where integer overflow wraps.  `Pubkey` values are opaque
32-byte keys compared only for equality; they are modelled as `Nat`.

The Rust field name `is_initialized` is rendered `isInitialized` here.
-/

namespace BsContract

/-- Opaque 32-byte identity key; only equality is ever used
(`cmp_pubkeys` is byte-wise equality). -/
abbrev Pubkey := Nat

/-- The moduli of `u64` / `u128` arithmetic. -/
def U64 : Nat := 2 ^ 64

def U128 : Nat := 2 ^ 128

/-- Rust `const COMISSION: u8 = 3;` (sic, the source's spelling). -/
def COMISSION : Nat := 3

/-- Rust `const BETS_RENT_EXCEMPTION: u64 = 1405920;` (sic). -/
def BETS_RENT_EXCEMPTION : Nat := 1405920

instance {ε α : Type} [DecidableEq ε] [DecidableEq α] : DecidableEq (Except ε α) := fun x y =>
  match x, y with
  | .ok a, .ok b => decidable_of_iff (a = b) (by simp)
  | .error e, .error f => decidable_of_iff (e = f) (by simp)
  | .ok _, .error _ => .isFalse (fun h => Except.noConfusion h)
  | .error _, .ok _ => .isFalse (fun h => Except.noConfusion h)

/-- The `ProgramError` variants the program actually returns. -/
inductive ProgramError
  | InvalidAccountData
  | InvalidInstructionData
  | MissingRequiredSignature
  | AccountAlreadyInitialized
deriving DecidableEq

/-- Rust `enum MatchOutcome { Unknown, TeamA, TeamB, Draw, Withdrawn }`. -/
inductive MatchOutcome
  | Unknown
  | TeamA
  | TeamB
  | Draw
  | Withdrawn
deriving DecidableEq

/-- Embeds `fn pack_match_outcome(value: MatchOutcome) -> u8`. -/
def pack_match_outcome : MatchOutcome → Nat
  | .Unknown => 0
  | .TeamA => 1
  | .TeamB => 2
  | .Draw => 3
  | .Withdrawn => 255

/-- Embeds `fn unpack_match_outcome(src: u8) -> Result<MatchOutcome, ProgramError>`.
Note that it accepts only `0..=3`; in particular the stored byte `255`
(`Withdrawn`) is rejected with `InvalidAccountData`. -/
def unpack_match_outcome (src : Nat) : Except ProgramError MatchOutcome :=
  match src with
  | 0 => .ok .Unknown
  | 1 => .ok .TeamA
  | 2 => .ok .TeamB
  | 3 => .ok .Draw
  | _ => .error .InvalidAccountData

/-- Rust `struct EventBets` — the Market record.  `outcome` is the raw stored
`u8`, exactly as in the Rust struct. -/
structure EventBets where
  isInitialized : Bool
  arbiter : Pubkey
  bets_allowed_until_ts : Int
  outcome : Nat
  balance_a : Nat
  balance_b : Nat
deriving DecidableEq

/-- Rust `struct Bet` — the Position record.  `outcome` is the raw stored `u8`. -/
structure Bet where
  isInitialized : Bool
  betor : Pubkey
  event : Pubkey
  amount : Nat
  outcome : Nat
deriving DecidableEq

/-- A market account as passed to an instruction: its address, the
program that owns it, its lamport balance and its deserialized data. -/
structure MarketAcct where
  key : Pubkey
  owner : Pubkey
  lamports : Nat
  data : EventBets
deriving DecidableEq

/-- A bet account as passed to an instruction. -/
structure BetAcct where
  key : Pubkey
  owner : Pubkey
  lamports : Nat
  data : Bet
deriving DecidableEq

/-! ### Instruction decoding (`Instruction::unpack`) -/

/-- The decoded request, `enum Instruction`. -/
inductive Instruction
  | Initialize (bets_accepted_until : Int)
  | AddBet (choice : MatchOutcome)
  | SetWinner (result : MatchOutcome)
  | Withdraw
deriving DecidableEq

/-- Outcome of decoding a request byte string.  `crash` models the
`unreachable!()` panic in the source's `_ =>` arm: it aborts the whole
process rather than returning a `ProgramError`. -/
inductive UnpackResult
  | ok (i : Instruction)
  | fail (e : ProgramError)
  | crash
deriving DecidableEq

/-- Embeds `UnixTimestamp::from_le_bytes` on the first 8 bytes: little-endian
two's-complement `i64`. -/
def i64_from_le (bs : List Nat) : Int :=
  let n : Nat := bs.foldr (fun b acc => b + 256 * acc) 0
  if n < 2 ^ 63 then (n : Int) else (n : Int) - 2 ^ 64

/-- Embeds `Instruction::unpack`, byte for byte.  Tag `0` needs an 8-byte
little-endian deadline, tags `1`/`2` a single outcome byte decoded by
`unpack_match_outcome`, tag `3` has no payload, and any other tag hits
`unreachable!()` — a process panic, modelled as `.crash`. -/
def instruction_unpack (input : List Nat) : UnpackResult :=
  match input with
  | [] => .fail .InvalidInstructionData
  | tag :: rest =>
    match tag with
    | 0 =>
      if rest.length < 8 then .fail .InvalidInstructionData
      else .ok (.Initialize (i64_from_le (rest.take 8)))
    | 1 =>
      match rest with
      | [] => .fail .InvalidInstructionData
      | c :: _ =>
        match unpack_match_outcome c with
        | .error e => .fail e
        | .ok o => .ok (.AddBet o)
    | 2 =>
      match rest with
      | [] => .fail .InvalidInstructionData
      | c :: _ =>
        match unpack_match_outcome c with
        | .error e => .fail e
        | .ok o => .ok (.SetWinner o)
    | 3 => .ok .Withdraw
    | _ => .crash

/-! ### `_process_initialize` -/

/-- Arguments of `_process_initialize`: the signing owner, the market
account, the substrate's rent-exemption verdict
(`rent.is_exempt(bets_info.lamports(), bets_info.data_len())`), the
trusted clock, and the instruction payload. -/
structure InitArgs where
  programId : Pubkey
  ownerKey : Pubkey
  ownerIsSigner : Bool
  rentExempt : Bool
  betsInfo : MarketAcct
  now : Int
  betsAcceptedUntil : Int
deriving DecidableEq

/-- Embeds `_process_initialize`.  On success it returns the new market record
that is serialized back; on error nothing is written. -/
def process_init (a : InitArgs) : Except ProgramError EventBets :=
  if !a.ownerIsSigner then .error .MissingRequiredSignature
  else if !a.rentExempt then .error .InvalidAccountData
  else if a.programId ≠ a.betsInfo.owner then .error .InvalidAccountData
  else if a.betsInfo.data.isInitialized then .error .AccountAlreadyInitialized
  else if a.betsAcceptedUntil < a.now then .error .InvalidInstructionData
  else
    .ok { isInitialized := true
          arbiter := a.ownerKey
          bets_allowed_until_ts := a.betsAcceptedUntil
          outcome := 0
          balance_a := 0
          balance_b := 0 }

/-! ### `_process_add_bet` -/

/-- Arguments of `_process_add_bet`: the bettor account (its signer flag
is recorded although the function never reads it), the market account,
the staging (`this_bet`) account, the decoded choice and the clock. -/
structure AddBetArgs where
  programId : Pubkey
  betorKey : Pubkey
  betorIsSigner : Bool
  betorLamports : Nat
  betsInfo : MarketAcct
  thisBet : BetAcct
  choice : MatchOutcome
  now : Int
deriving DecidableEq

/-- Successful result of `_process_add_bet`: the two records written
back and the two lamport balances after the transfer. -/
structure AddBetOk where
  betsData : EventBets
  betData : Bet
  betsLamports : Nat
  thisBetLamports : Nat
deriving DecidableEq

/-- Embeds `_process_add_bet`.  The assignment `this_bet.amount = this_bet_acc.lamports() -
BETS_RENT_EXCEMPTION` is an unchecked `u64` subtraction: in release
builds it wraps modulo `2^64`, which the model makes explicit; there is
no minimum-balance (rent-exemption) check on the staging account. -/
def process_add_bet (a : AddBetArgs) : Except ProgramError AddBetOk :=
  if a.programId ≠ a.betsInfo.owner then .error .InvalidAccountData
  else if a.programId ≠ a.thisBet.owner then .error .InvalidAccountData
  else if !a.betsInfo.data.isInitialized then .error .InvalidAccountData
  else if a.thisBet.data.isInitialized then .error .InvalidAccountData
  else if a.betsInfo.data.bets_allowed_until_ts < a.now then .error .InvalidAccountData
  else
    match unpack_match_outcome a.betsInfo.data.outcome with
    | .error e => .error e
    | .ok mo =>
      if mo ≠ .Unknown then .error .InvalidAccountData
      else
        let amount := (a.thisBet.lamports + U64 - BETS_RENT_EXCEMPTION) % U64
        let newBet : Bet :=
          { isInitialized := true
            outcome := pack_match_outcome a.choice
            betor := a.betorKey
            amount := amount
            event := a.betsInfo.key }
        match a.choice with
        | .TeamA =>
          .ok { betsData := { a.betsInfo.data with
                              balance_a := (a.betsInfo.data.balance_a + amount) % U64 }
                betData := newBet
                betsLamports := (a.betsInfo.lamports + amount) % U64
                thisBetLamports := BETS_RENT_EXCEMPTION }
        | .TeamB =>
          .ok { betsData := { a.betsInfo.data with
                              balance_b := (a.betsInfo.data.balance_b + amount) % U64 }
                betData := newBet
                betsLamports := (a.betsInfo.lamports + amount) % U64
                thisBetLamports := BETS_RENT_EXCEMPTION }
        | _ => .error .InvalidAccountData

/-! ### `_process_set_winner` -/

/-- Arguments of `_process_set_winner`. -/
structure SetWinnerArgs where
  ownerKey : Pubkey
  ownerIsSigner : Bool
  ownerLamports : Nat
  betsInfo : MarketAcct
  result : MatchOutcome
  now : Int
deriving DecidableEq

/-- Successful result of `_process_set_winner`. -/
structure SetWinnerOk where
  betsData : EventBets
  betsLamports : Nat
  ownerLamports : Nat
deriving DecidableEq

/-- Embeds `_process_set_winner`.  The commission transfer is guarded by
`outcome == Unknown`, but the outcome byte is overwritten
unconditionally afterwards. -/
def process_set_winner (a : SetWinnerArgs) : Except ProgramError SetWinnerOk :=
  if !a.ownerIsSigner then .error .MissingRequiredSignature
  else if !a.betsInfo.data.isInitialized then .error .InvalidAccountData
  else if a.now < a.betsInfo.data.bets_allowed_until_ts then .error .InvalidAccountData
  else if a.betsInfo.data.arbiter ≠ a.ownerKey then .error .InvalidAccountData
  else if a.result = .Unknown then .error .InvalidAccountData
  else
    match unpack_match_outcome a.betsInfo.data.outcome with
    | .error e => .error e
    | .ok mo =>
      let comission := a.betsInfo.lamports * COMISSION % U64 / 100
      let bl := if mo = .Unknown then (a.betsInfo.lamports + U64 - comission) % U64
                else a.betsInfo.lamports
      let ol := if mo = .Unknown then (a.ownerLamports + comission) % U64
                else a.ownerLamports
      .ok { betsData := { a.betsInfo.data with outcome := pack_match_outcome a.result }
            betsLamports := bl
            ownerLamports := ol }

/-! ### `_process_withdraw` -/

/-- The payout `match` expression of `_process_withdraw` (lines
348–377), on the unpacked market outcome, the unpacked bet outcome, the
two pools and the stake.  All arithmetic is `u128`; the Rust divisions
panic on a zero divisor, which no claim exercises (in the compiled
guard path the first component is always `Unknown`, so the dividing
arms are dead). -/
def withdraw_payout (r c : MatchOutcome) (balA balB amt : Nat) : Nat :=
  match r, c with
  | .TeamA, .TeamA =>
    let r1 := 1 * balB % U128
    let r2 := r1 * amt % U128
    let r3 := r2 / balA
    let r4 := (r3 + amt) % U128
    let r5 := r4 * (100 - COMISSION) % U128
    r5 / 100
  | .TeamB, .TeamB =>
    let r1 := 1 * balA % U128
    let r2 := r1 * amt % U128
    let r3 := r2 / balB
    let r4 := (r3 + amt) % U128
    let r5 := r4 * (100 - COMISSION) % U128
    r5 / 100
  | .Draw, .TeamA =>
    let r1 := (0 + amt) % U128
    let r2 := r1 * (100 - COMISSION) % U128
    r2 / 100
  | .Draw, .TeamB =>
    let r1 := (0 + amt) % U128
    let r2 := r1 * (100 - COMISSION) % U128
    r2 / 100
  | _, _ => 0

/-- Arguments of `_process_withdraw`. -/
structure WithdrawArgs where
  programId : Pubkey
  betorKey : Pubkey
  betorLamports : Nat
  betsInfo : MarketAcct
  thisBet : BetAcct
deriving DecidableEq

/-- Successful result of `_process_withdraw`: the market record is
re-serialized unchanged, the bet record with `outcome := 255`
(`Withdrawn`), and `paid` lamports move from the market to the bettor. -/
structure WithdrawOk where
  betsData : EventBets
  betData : Bet
  betsLamports : Nat
  betorLamports : Nat
  paid : Nat
deriving DecidableEq

/-- Embeds `_process_withdraw`.  Checks in source order: market ownership,
Position→Market back-reference, bettor identity, then the guard
`unpack_match_outcome(bets.outcome)? != Unknown → Err` (line 343) — so
the call proceeds only while the market outcome is still `Unknown`.
The payout `match` then re-unpacks both outcome bytes with `?`; a bet
whose stored outcome byte is `255` (`Withdrawn`) fails there because
`unpack_match_outcome` rejects `255`. -/
def process_withdraw (a : WithdrawArgs) : Except ProgramError WithdrawOk :=
  if a.programId ≠ a.betsInfo.owner then .error .InvalidAccountData
  else if a.betsInfo.key ≠ a.thisBet.data.event then .error .InvalidAccountData
  else if a.thisBet.data.betor ≠ a.betorKey then .error .InvalidAccountData
  else
    match unpack_match_outcome a.betsInfo.data.outcome with
    | .error e => .error e
    | .ok mo =>
      if mo ≠ .Unknown then .error .InvalidAccountData
      else
        match unpack_match_outcome a.thisBet.data.outcome with
        | .error e => .error e
        | .ok bo =>
          let wb := withdraw_payout mo bo a.betsInfo.data.balance_a
                      a.betsInfo.data.balance_b a.thisBet.data.amount
          if wb > a.betsInfo.lamports then .error .InvalidAccountData
          else
            .ok { betsData := a.betsInfo.data
                  betData := { a.thisBet.data with
                               outcome := pack_match_outcome .Withdrawn }
                  betsLamports := a.betsInfo.lamports - wb
                  betorLamports := (a.betorLamports + wb) % U64
                  paid := wb }

/-! ### Auxiliary definitions used by the claims -/

/-- Sum of `amount` over the still-open positions with stored outcome
byte `c` (a position whose byte has been flipped to `255` is no longer
open). -/
def sum_open (c : Nat) (l : List Bet) : Nat :=
  (l.filter (fun b => b.outcome == c)).foldr (fun b s => b.amount + s) 0

/-- A withdraw request on a market whose outcome has been set to
`TeamA` (byte `1`), pools `100`/`50`, by the matching TeamA position of
stake `100`; every identity/back-reference check passes. -/
def c1ArgsSet : WithdrawArgs :=
  { programId := 7, betorKey := 2, betorLamports := 0
    betsInfo := ⟨10, 7, 2000100, ⟨true, 1, 1000, 1, 100, 50⟩⟩
    thisBet := ⟨20, 7, 1405920, ⟨true, 2, 10, 100, 1⟩⟩ }

/-- The same withdraw request while the market outcome byte is still
`0` (`Unknown`). -/
def c1ArgsUnknown : WithdrawArgs :=
  { programId := 7, betorKey := 2, betorLamports := 0
    betsInfo := ⟨10, 7, 2000100, ⟨true, 1, 1000, 0, 100, 50⟩⟩
    thisBet := ⟨20, 7, 1405920, ⟨true, 2, 10, 100, 1⟩⟩ }

/-- C1: the claim says a Withdraw on a still-`Unknown` market fails and
one on a settled market passes the guard.  The code does the opposite:
line 343 rejects exactly when the outcome is *not* `Unknown`, so the
settled-market call errors, while the still-`Unknown` call passes every
check, succeeds, pays `0` and burns the position (`outcome := 255`).
This contradicts the code's own intent — the payout arms for settled
outcomes at lines 348–368 are unreachable dead code under this guard. -/
theorem c1_withdraw_guard_is_inverted :
    process_withdraw c1ArgsSet = .error .InvalidAccountData ∧
    process_withdraw c1ArgsUnknown =
      .ok ⟨⟨true, 1, 1000, 0, 100, 50⟩, ⟨true, 2, 10, 100, 255⟩, 2000100, 0, 0⟩ := by
  decide

/-- A withdraw request with market outcome `TeamA`, pools `A = 100`,
`B = 50`, and a TeamA position of stake `100`. -/
def c2Args : WithdrawArgs :=
  { programId := 7, betorKey := 4, betorLamports := 0
    betsInfo := ⟨11, 7, 2000100, ⟨true, 1, 1000, 1, 100, 50⟩⟩
    thisBet := ⟨21, 7, 1405920, ⟨true, 4, 11, 100, 1⟩⟩ }

/-- C2: the payout expression of `_process_withdraw` (lines 348–377)
does compute `floor((s + floor(s*B/A)) * 97 / 100)` in 128-bit width —
`145` for `A=100, B=50, s=100` on TeamA, and `0` for a TeamB stake of
`50` — but no Withdraw call ever reaches it with a settled outcome: the
guard at line 343 rejects any market whose outcome is no longer
`Unknown`, so the call with final outcome `TeamA` fails and the bettor
receives nothing, not `145`. -/
theorem c2_payout_formula_is_dead_code :
    withdraw_payout .TeamA .TeamA 100 50 100 = 145 ∧
    withdraw_payout .TeamA .TeamB 100 50 50 = 0 ∧
    process_withdraw c2Args = .error .InvalidAccountData := by
  decide

/-- C7: decoding is total on empty input (typed failure) but the
`_ => unreachable!()` arm panics the process on any unknown selector
byte, e.g. `[4]`, instead of returning a typed error. -/
theorem c7_unpack_panics_on_unknown_selector :
    instruction_unpack [4] = .crash ∧
    instruction_unpack [] = .fail .InvalidInstructionData ∧
    instruction_unpack [3] = .ok .Withdraw := by
  decide

/-- An AddBet whose staging account holds exactly
`BETS_RENT_EXCEMPTION` lamports — no more than the minimum retention. -/
def c8Args : AddBetArgs :=
  { programId := 7, betorKey := 2, betorIsSigner := false, betorLamports := 0
    betsInfo := ⟨10, 7, 2000000, ⟨true, 1, 1000, 0, 0, 0⟩⟩
    thisBet := ⟨20, 7, 1405920, ⟨false, 0, 0, 0, 0⟩⟩
    choice := .TeamA, now := 500 }

/-- An AddBet whose staging account holds `0` lamports. -/
def c8ArgsZero : AddBetArgs :=
  { programId := 7, betorKey := 3, betorIsSigner := false, betorLamports := 0
    betsInfo := ⟨10, 7, 2000000, ⟨true, 1, 1000, 0, 0, 0⟩⟩
    thisBet := ⟨21, 7, 0, ⟨false, 0, 0, 0, 0⟩⟩
    choice := .TeamB, now := 500 }

/-- C8: `_process_add_bet` never checks the staging balance against the
minimum retention.  With the staging account holding exactly
`BETS_RENT_EXCEMPTION` the call succeeds with a zero stake instead of
failing with a typed error; with it holding `0` the unchecked `u64`
subtraction wraps and the call succeeds with a stake of
`2^64 - 1405920` (in a debug build it would panic on overflow — in no
build does it return a typed error). -/
theorem c8_no_minimum_retention_check :
    process_add_bet c8Args =
      .ok ⟨⟨true, 1, 1000, 0, 0, 0⟩, ⟨true, 2, 10, 0, 1⟩, 2000000, 1405920⟩ ∧
    process_add_bet c8ArgsZero =
      .ok ⟨⟨true, 1, 1000, 0, 0, 18446744073708145696⟩,
           ⟨true, 3, 10, 18446744073708145696, 2⟩, 594080, 1405920⟩ ∧
    U64 - BETS_RENT_EXCEMPTION = 18446744073708145696 := by
  decide

/-- An AddBet with the bettor account not signing. -/
def c10Args : AddBetArgs :=
  { programId := 7, betorKey := 2, betorIsSigner := false, betorLamports := 0
    betsInfo := ⟨10, 7, 2000000, ⟨true, 1, 1000, 0, 0, 0⟩⟩
    thisBet := ⟨20, 7, 1406020, ⟨false, 0, 0, 0, 0⟩⟩
    choice := .TeamA, now := 500 }

/-- C10: `_process_add_bet` never reads the bettor account's signer
flag: flipping it changes nothing in the result, and a call with the
flag off succeeds and records the supplied bettor identity on the new
position. -/
theorem c10_add_bet_ignores_bettor_signer :
    (∀ (a : AddBetArgs) (b₁ b₂ : Bool),
      process_add_bet { a with betorIsSigner := b₁ } =
      process_add_bet { a with betorIsSigner := b₂ }) ∧
    (c10Args.betorIsSigner = false ∧
      process_add_bet c10Args =
        .ok ⟨⟨true, 1, 1000, 0, 100, 0⟩, ⟨true, 2, 10, 100, 1⟩, 2000100, 1405920⟩) := by
  refine ⟨fun a b₁ b₂ => rfl, ?_, ?_⟩ <;> decide

/-- C3: while the market outcome byte is still `0` (`Unknown`), a
Withdraw whose ownership, back-reference and bettor-identity checks
pass (on a position whose stored outcome byte is still a legal
`0..=3` value) succeeds, pays out exactly `0` lamports, leaves the
market record and balance untouched, and overwrites the position's
outcome byte with `255` (`Withdrawn`) — the stake is unrecoverable. -/
theorem c3_withdraw_before_set_winner_burns_stake (a : WithdrawArgs)
    (hown : a.programId = a.betsInfo.owner)
    (hev : a.betsInfo.key = a.thisBet.data.event)
    (hbet : a.thisBet.data.betor = a.betorKey)
    (hmo : a.betsInfo.data.outcome = 0)
    (hbo : a.thisBet.data.outcome ≤ 3)
    (hbl : a.betorLamports < U64) :
    process_withdraw a =
      .ok { betsData := a.betsInfo.data
            betData := { a.thisBet.data with outcome := 255 }
            betsLamports := a.betsInfo.lamports
            betorLamports := a.betorLamports
            paid := 0 } := by
  have hcases : a.thisBet.data.outcome = 0 ∨ a.thisBet.data.outcome = 1 ∨
      a.thisBet.data.outcome = 2 ∨ a.thisBet.data.outcome = 3 := by omega
  unfold process_withdraw
  rcases hcases with hc | hc | hc | hc <;>
    simp [hown, hev, hbet, hmo, hc, unpack_match_outcome, withdraw_payout,
      pack_match_outcome, Nat.mod_eq_of_lt hbl]

/-- Witness for C3: a TeamA position of stake `100` withdrawn while the market is still
open receives `0` and is marked `Withdrawn`. -/
theorem c3_witness :
    process_withdraw
        ⟨7, 2, 0, ⟨10, 7, 2000100, ⟨true, 1, 1000, 0, 100, 0⟩⟩,
         ⟨20, 7, 1405920, ⟨true, 2, 10, 100, 1⟩⟩⟩ =
      .ok ⟨⟨true, 1, 1000, 0, 100, 0⟩, ⟨true, 2, 10, 100, 255⟩, 2000100, 0, 0⟩ :=
  c3_withdraw_before_set_winner_burns_stake _ rfl rfl rfl rfl (by decide) (by decide)

/-- C4: a successful Withdraw always flips the position's stored
outcome byte to `255` (`Withdrawn`), and any later Withdraw naming a
position whose byte is `255` fails (returns a `ProgramError`, moving no
value): either an early identity/guard check rejects it, or
`unpack_match_outcome` rejects the byte `255` in the payout match. -/
theorem c4_withdraw_is_single_use (a a2 : WithdrawArgs) (r : WithdrawOk)
    (h : process_withdraw a = .ok r)
    (h2 : a2.thisBet.data = r.betData) :
    ∃ e, process_withdraw a2 = .error e := by
  have hw : a2.thisBet.data.outcome = 255 := by
    rw [h2]
    unfold process_withdraw at h
    repeat' split at h
    all_goals try (rw [ite_eq_iff] at h; rcases h with ⟨hc, h⟩ | ⟨hc, h⟩)
    all_goals first
      | (injection h with h; subst h; rfl)
      | simp_all [pack_match_outcome]
  unfold process_withdraw
  rw [hw]
  repeat' split
  all_goals first
    | exact ⟨_, rfl⟩
    | simp_all [unpack_match_outcome]

/-- Witness for C4: re-submitting the same withdraw after it succeeded
(the position's outcome byte now `255`) fails. -/
theorem c4_witness :
    ∃ e, process_withdraw
        ⟨7, 2, 5, ⟨10, 7, 2000100, ⟨true, 1, 1000, 0, 100, 0⟩⟩,
         ⟨20, 7, 1405920, ⟨true, 2, 10, 100, 255⟩⟩⟩ = .error e :=
  c4_withdraw_is_single_use
    ⟨7, 2, 5, ⟨10, 7, 2000100, ⟨true, 1, 1000, 0, 100, 0⟩⟩,
     ⟨20, 7, 1405920, ⟨true, 2, 10, 100, 1⟩⟩⟩
    ⟨7, 2, 5, ⟨10, 7, 2000100, ⟨true, 1, 1000, 0, 100, 0⟩⟩,
     ⟨20, 7, 1405920, ⟨true, 2, 10, 100, 255⟩⟩⟩
    ⟨⟨true, 1, 1000, 0, 100, 0⟩, ⟨true, 2, 10, 100, 255⟩, 2000100, 5, 0⟩
    (by decide) rfl

/-- C9: on a market record that is already marked initialized,
`_process_initialize` always fails — no branch reaches the write-back —
and whenever the generic signer / rent-exemption / ownership checks
pass, the error is precisely `AccountAlreadyInitialized`.  Errors leave
the record unchanged: the function serializes only on success. -/
theorem c9_second_init_always_fails (a : InitArgs)
    (h : a.betsInfo.data.isInitialized = true) :
    (∃ e, process_init a = .error e) ∧
    (a.ownerIsSigner = true → a.rentExempt = true →
      a.programId = a.betsInfo.owner →
      process_init a = .error .AccountAlreadyInitialized) := by
  constructor
  · unfold process_init
    repeat' split
    all_goals first
      | exact ⟨_, rfl⟩
      | simp_all
  · intro hs hr hp
    simp [process_init, hs, hr, hp, h]

/-- Witness for C9. -/
theorem c9_witness :
    (∃ e, process_init
        ⟨7, 1, true, true, ⟨10, 7, 2000000, ⟨true, 1, 1000, 0, 0, 0⟩⟩, 100, 2000⟩ =
        .error e) ∧
    ((true : Bool) = true → (true : Bool) = true → (7 : Pubkey) = 7 →
      process_init
        ⟨7, 1, true, true, ⟨10, 7, 2000000, ⟨true, 1, 1000, 0, 0, 0⟩⟩, 100, 2000⟩ =
        .error .AccountAlreadyInitialized) :=
  c9_second_init_always_fails _ rfl

/-- C6: provided the signer / initialized / deadline / arbiter /
non-`Unknown`-result preconditions hold (and the `u64` arithmetic does
not wrap), a SetWinner on a market whose stored outcome byte is still
`0` moves `lamports * 3 / 100` from the market to the authority and
overwrites the outcome byte; a SetWinner on a market whose outcome byte
is already `1`, `2` or `3` moves nothing but still overwrites the
outcome byte with the new result. -/
theorem c6_commission_only_on_first_set_winner (a : SetWinnerArgs)
    (hs : a.ownerIsSigner = true)
    (hi : a.betsInfo.data.isInitialized = true)
    (ht : a.betsInfo.data.bets_allowed_until_ts ≤ a.now)
    (ha : a.betsInfo.data.arbiter = a.ownerKey)
    (hr : a.result ≠ .Unknown)
    (hl : a.betsInfo.lamports * 3 < U64)
    (ho : a.ownerLamports + a.betsInfo.lamports * 3 / 100 < U64) :
    (a.betsInfo.data.outcome = 0 →
      process_set_winner a = .ok
        { betsData := { a.betsInfo.data with outcome := pack_match_outcome a.result }
          betsLamports := a.betsInfo.lamports - a.betsInfo.lamports * 3 / 100
          ownerLamports := a.ownerLamports + a.betsInfo.lamports * 3 / 100 }) ∧
    ((a.betsInfo.data.outcome = 1 ∨ a.betsInfo.data.outcome = 2 ∨
        a.betsInfo.data.outcome = 3) →
      process_set_winner a = .ok
        { betsData := { a.betsInfo.data with outcome := pack_match_outcome a.result }
          betsLamports := a.betsInfo.lamports
          ownerLamports := a.ownerLamports }) := by
  have ht' : ¬ a.now < a.betsInfo.data.bets_allowed_until_ts := not_lt.mpr ht
  have hU : U64 = 18446744073709551616 := rfl
  have hc : a.betsInfo.lamports * 3 % U64 = a.betsInfo.lamports * 3 :=
    Nat.mod_eq_of_lt hl
  have hsub : (a.betsInfo.lamports + U64 - a.betsInfo.lamports * 3 / 100) % U64 =
      a.betsInfo.lamports - a.betsInfo.lamports * 3 / 100 := by
    rw [hU] at hl ⊢
    omega
  constructor
  · intro hout
    simp [process_set_winner, COMISSION, hs, hi, ht', ha, hr, hout, unpack_match_outcome,
      hc, hsub, Nat.mod_eq_of_lt ho]
  · intro hout
    rcases hout with hout | hout | hout <;>
      simp [process_set_winner, hs, hi, ht', ha, hr, hout, unpack_match_outcome]

/-- Witness for C6: market balance `2000100`, commission `60003`; the first SetWinner moves
it, a second SetWinner moves nothing and overwrites the outcome. -/
theorem c6_witness :
    (((⟨1, true, 5000, ⟨10, 7, 2000100, ⟨true, 1, 1000, 0, 100, 0⟩⟩, .TeamA, 2000⟩ :
          SetWinnerArgs).betsInfo.data.outcome = 0 →
      process_set_winner ⟨1, true, 5000, ⟨10, 7, 2000100, ⟨true, 1, 1000, 0, 100, 0⟩⟩, .TeamA, 2000⟩ =
        .ok ⟨⟨true, 1, 1000, 1, 100, 0⟩, 2000100 - 60003, 5000 + 60003⟩) ∧
      (((⟨1, true, 5000, ⟨10, 7, 2000100, ⟨true, 1, 1000, 0, 100, 0⟩⟩, .TeamA, 2000⟩ :
            SetWinnerArgs).betsInfo.data.outcome = 1 ∨
          (⟨1, true, 5000, ⟨10, 7, 2000100, ⟨true, 1, 1000, 0, 100, 0⟩⟩, .TeamA, 2000⟩ :
            SetWinnerArgs).betsInfo.data.outcome = 2 ∨
          (⟨1, true, 5000, ⟨10, 7, 2000100, ⟨true, 1, 1000, 0, 100, 0⟩⟩, .TeamA, 2000⟩ :
            SetWinnerArgs).betsInfo.data.outcome = 3) →
        process_set_winner ⟨1, true, 5000, ⟨10, 7, 2000100, ⟨true, 1, 1000, 0, 100, 0⟩⟩, .TeamA, 2000⟩ =
          .ok ⟨⟨true, 1, 1000, 1, 100, 0⟩, 2000100, 5000⟩)) :=
  c6_commission_only_on_first_set_winner _ rfl rfl (by decide) rfl (by decide)
    (by decide) (by decide)

/-! ### C5: pool/positions accounting -/

theorem unpack_ok_unknown {n : Nat}
    (h : unpack_match_outcome n = .ok .Unknown) : n = 0 := by
  unfold unpack_match_outcome at h
  split at h <;> simp_all

theorem sum_open_cons (c : Nat) (b : Bet) (l : List Bet) :
    sum_open c (b :: l) = (if b.outcome = c then b.amount else 0) + sum_open c l := by
  by_cases hb : b.outcome = c <;> simp [sum_open, List.filter_cons, hb]

/-- Shape of any successful `_process_add_bet` call: the market outcome
byte was `0`, the created position records the bettor, market key and
the staged amount, and exactly the matching pool is incremented. -/
theorem add_bet_ok_shape (a : AddBetArgs) (r : AddBetOk)
    (h : process_add_bet a = .ok r) :
    a.betsInfo.data.outcome = 0 ∧
    r.betData = { isInitialized := true
                  outcome := pack_match_outcome a.choice
                  betor := a.betorKey
                  amount := (a.thisBet.lamports + U64 - BETS_RENT_EXCEMPTION) % U64
                  event := a.betsInfo.key } ∧
    ((a.choice = .TeamA ∧ r.betsData = { a.betsInfo.data with
        balance_a := (a.betsInfo.data.balance_a +
          (a.thisBet.lamports + U64 - BETS_RENT_EXCEMPTION) % U64) % U64 }) ∨
     (a.choice = .TeamB ∧ r.betsData = { a.betsInfo.data with
        balance_b := (a.betsInfo.data.balance_b +
          (a.thisBet.lamports + U64 - BETS_RENT_EXCEMPTION) % U64) % U64 })) := by
  unfold process_add_bet at h
  repeat' split at h
  all_goals first
    | (injection h with h
       refine ⟨unpack_ok_unknown (by simp_all), ?_, ?_⟩
       · rw [← h]
       · first
         | exact Or.inl ⟨by assumption, by rw [← h]⟩
         | exact Or.inr ⟨by assumption, by rw [← h]⟩)
    | simp_all

/-- Any successful `_process_set_winner` call overwrites the stored
outcome byte with the packed (non-`Unknown`) result. -/
theorem set_winner_ok_outcome (a : SetWinnerArgs) (r : SetWinnerOk)
    (h : process_set_winner a = .ok r) :
    r.betsData.outcome = pack_match_outcome a.result ∧ a.result ≠ .Unknown := by
  unfold process_set_winner at h
  repeat' split at h
  all_goals first
    | (injection h with h; subst h; simp_all)
    | simp_all

/-- Market states (with the positions created on them) reachable by
successful `_process_initialize`, `_process_add_bet` and
`_process_set_winner` calls — the amended scope of C5, which excludes
Withdraw. -/
inductive ReachableNoW (pid : Pubkey) : MarketAcct → List Bet → Prop
  | start (a : InitArgs) (d : EventBets)
      (hpid : a.programId = pid)
      (h : process_init a = .ok d) :
      ReachableNoW pid { a.betsInfo with data := d } []
  | bet (m : MarketAcct) (l : List Bet) (a : AddBetArgs) (r : AddBetOk)
      (prev : ReachableNoW pid m l)
      (hpid : a.programId = pid) (hm : a.betsInfo = m)
      (h : process_add_bet a = .ok r) :
      ReachableNoW pid { m with data := r.betsData, lamports := r.betsLamports }
        (r.betData :: l)
  | winner (m : MarketAcct) (l : List Bet) (a : SetWinnerArgs) (r : SetWinnerOk)
      (prev : ReachableNoW pid m l)
      (hm : a.betsInfo = m)
      (h : process_set_winner a = .ok r) :
      ReachableNoW pid { m with data := r.betsData, lamports := r.betsLamports } l

/-- C5 (amended): along every sequence of successful Initialize, AddBet
and SetWinner operations — Withdraw excluded, see the counterexample —
while the stored outcome byte is still `0` (`Unknown`), `pool_a` equals
the sum (as `u64`, i.e. modulo `2^64`) of the amounts of the positions
created with choice TeamA, `pool_b` the TeamB sum, and every created
position chose TeamA or TeamB (AddBet rejects Draw, so Draw positions
never exist and contribute to neither pool). -/
theorem c5_pools_equal_open_position_sums (pid : Pubkey) (m : MarketAcct)
    (l : List Bet) (h : ReachableNoW pid m l) :
    m.data.outcome = 0 →
    (m.data.balance_a = sum_open 1 l % U64 ∧
     m.data.balance_b = sum_open 2 l % U64 ∧
     ∀ b ∈ l, b.outcome = 1 ∨ b.outcome = 2) := by
  induction h with
  | start a d hpid hi =>
    intro _
    unfold process_init at hi
    repeat' split at hi
    all_goals first
      | (injection hi with hi; subst hi; simp [sum_open])
      | simp_all
  | bet m l a r prev hpid hm hab ih =>
    intro _
    obtain ⟨ho0, hbet, hcase⟩ := add_bet_ok_shape a r hab
    rw [hm] at ho0 hbet hcase
    obtain ⟨iha, ihb, ihmem⟩ := ih ho0
    rcases hcase with ⟨hch, hdata⟩ | ⟨hch, hdata⟩
    · rw [hch] at hbet
      refine ⟨?_, ?_, ?_⟩
      · show r.betsData.balance_a = sum_open 1 (r.betData :: l) % U64
        rw [hdata, hbet, sum_open_cons]
        simp [pack_match_outcome, iha, Nat.mod_add_mod, Nat.add_comm]
      · show r.betsData.balance_b = sum_open 2 (r.betData :: l) % U64
        rw [hdata, hbet, sum_open_cons]
        simp [pack_match_outcome, ihb]
      · intro b hb
        rcases List.mem_cons.mp hb with hb | hb
        · rw [hb, hbet]
          simp [pack_match_outcome]
        · exact ihmem b hb
    · rw [hch] at hbet
      refine ⟨?_, ?_, ?_⟩
      · show r.betsData.balance_a = sum_open 1 (r.betData :: l) % U64
        rw [hdata, hbet, sum_open_cons]
        simp [pack_match_outcome, iha]
      · show r.betsData.balance_b = sum_open 2 (r.betData :: l) % U64
        rw [hdata, hbet, sum_open_cons]
        simp [pack_match_outcome, ihb, Nat.mod_add_mod, Nat.add_comm]
      · intro b hb
        rcases List.mem_cons.mp hb with hb | hb
        · rw [hb, hbet]
          simp [pack_match_outcome]
        · exact ihmem b hb
  | winner m l a r prev hm hw ih =>
    intro ho
    obtain ⟨hout, hres⟩ := set_winner_ok_outcome a r hw
    exfalso
    have ho2 : r.betsData.outcome = 0 := ho
    rw [hout] at ho2
    cases hres2 : a.result <;> simp_all [pack_match_outcome]

def c5InitArgs : InitArgs :=
  ⟨7, 1, true, true, ⟨10, 7, 2000000, ⟨false, 0, 0, 0, 0, 0⟩⟩, 100, 1000⟩

def c5Market0 : EventBets := ⟨true, 1, 1000, 0, 0, 0⟩

def c5AddArgs : AddBetArgs :=
  ⟨7, 2, false, 0, ⟨10, 7, 2000000, c5Market0⟩, ⟨20, 7, 1406020, ⟨false, 0, 0, 0, 0⟩⟩,
   .TeamA, 500⟩

def c5Market1 : EventBets := ⟨true, 1, 1000, 0, 100, 0⟩

def c5Bet1 : Bet := ⟨true, 2, 10, 100, 1⟩

def c5WArgs : WithdrawArgs :=
  ⟨7, 2, 0, ⟨10, 7, 2000100, c5Market1⟩, ⟨20, 7, 1405920, c5Bet1⟩⟩

/-- C5 as frozen is false: Initialize, then AddBet of stake `100` on
TeamA, then a successful Withdraw of that position — three successful
operations, the market outcome byte still `0` — leave `pool_a = 100`
while the sum of amounts of still-open TeamA positions is `0` (the only
position's byte is now `255`). -/
theorem c5_counterexample :
    process_init c5InitArgs = .ok c5Market0 ∧
    c5AddArgs.betsInfo.data = c5Market0 ∧
    process_add_bet c5AddArgs = .ok ⟨c5Market1, c5Bet1, 2000100, 1405920⟩ ∧
    c5WArgs.betsInfo.data = c5Market1 ∧
    c5WArgs.thisBet.data = c5Bet1 ∧
    process_withdraw c5WArgs =
      .ok ⟨c5Market1, ⟨true, 2, 10, 100, 255⟩, 2000100, 0, 0⟩ ∧
    c5Market1.outcome = 0 ∧
    c5Market1.balance_a = 100 ∧
    sum_open 1 [⟨true, 2, 10, 100, 255⟩] = 0 := by
  decide

/-- Witness for the amended C5: after Initialize and one TeamA AddBet of stake `100`, `pool_a = 100` matches
the open-position sum. -/
theorem c5_witness :
    (⟨true, 1, 1000, 0, 100, 0⟩ : EventBets).balance_a =
        sum_open 1 [(⟨true, 2, 10, 100, 1⟩ : Bet)] % U64 ∧
    (⟨true, 1, 1000, 0, 100, 0⟩ : EventBets).balance_b =
        sum_open 2 [(⟨true, 2, 10, 100, 1⟩ : Bet)] % U64 ∧
    ∀ b ∈ [(⟨true, 2, 10, 100, 1⟩ : Bet)], b.outcome = 1 ∨ b.outcome = 2 := by
  have h0 : ReachableNoW 7 ⟨10, 7, 2000000, ⟨true, 1, 1000, 0, 0, 0⟩⟩ [] :=
    ReachableNoW.start c5InitArgs ⟨true, 1, 1000, 0, 0, 0⟩ rfl (by decide)
  have h1 : ReachableNoW 7 ⟨10, 7, 2000100, ⟨true, 1, 1000, 0, 100, 0⟩⟩
      [⟨true, 2, 10, 100, 1⟩] :=
    ReachableNoW.bet _ _ c5AddArgs ⟨⟨true, 1, 1000, 0, 100, 0⟩, ⟨true, 2, 10, 100, 1⟩,
      2000100, 1405920⟩ h0 rfl rfl (by decide)
  exact c5_pools_equal_open_position_sums 7 _ _ h1 rfl

end BsContract
